import Mathlib

/-! The status cache around the `upnpc` helper (`igdman/upnp.go`).

A shallow embedding of `upnp.go`.  The record `upnpIGD` holds the three cached
strings of the Go struct; the helper executable behind `igd.upnpc` is an
arbitrary function `Helper` from the command lines seen so far and the current
command line to a combined output and an error, and the field `upnpc` keeps the
list of command lines issued through the handle.  Every method takes the record
and returns its results together with the record after the call.  The mutex of
`updateStatusIfNecessary` has no effect on a single thread of calls and is left
out.
-/

namespace Igdman

/-! ## Strings, errors and the library functions the file uses -/

/-- A Go string is a sequence of bytes; one list element stands for one byte. -/
abbrev Str := List Char

/-- A Go error value: `none` is `nil`, `some msg` is an error whose text is `msg`. -/
abbrev error := Option Str

/-- A string constant of the source. -/
def lit (s : String) : Str := s.toList

/-- Position of the first place at which `substr` starts inside `s`, if any. -/
def firstOcc : Str → Str → Option Nat
  | [], substr => if substr = [] then some 0 else none
  | c :: s, substr =>
    if substr.isPrefixOf (c :: s) then some 0
    else (firstOcc s substr).map (· + 1)

/-- Go `strings.Index`: the index of the first instance of `substr` in `s`,
or `-1` when `substr` is not present in `s`. -/
def Index (s substr : Str) : Int :=
  match firstOcc s substr with
  | some i => (i : Int)
  | none => -1

/-- Go `strings.Contains`: whether `substr` is within `s`. -/
def Contains (s substr : Str) : Bool := decide (0 ≤ Index s substr)

/-- The slice expression `s[i:]`, for `0 ≤ i ≤ len(s)`. -/
def sliceFrom (s : Str) (i : Int) : Str := s.drop i.toNat

/-- The slice expression `s[:j]`, for `0 ≤ j ≤ len(s)`. -/
def sliceTo (s : Str) (j : Int) : Str := s.take j.toNat

/-- Go `fmt.Sprintf("%d", n)` for an integer `n`. -/
def Sprintf_d (n : Int) : Str := (Int.repr n).toList

/-- Go `time.Second`, a `time.Duration` counted in nanoseconds. -/
def Second : Int := 1000000000

/-- Modelled from the spec: the declaration of the type `protocol` is not in
`upnp.go`.  The source converts a value with `string(proto)`, and the spec gives
the tag as a literal string handed to the helper, `"TCP"` or `"UDP"`; a value
is its string. -/
abbrev protocol := Str

/-- Modelled from the spec: the tag serialised as `"TCP"`. -/
def TCP : protocol := lit "TCP"

/-- Modelled from the spec: the tag serialised as `"UDP"`. -/
def UDP : protocol := lit "UDP"

/-! ## Constants and data of `upnp.go` -/

def IGD_URL_LABEL : Str := lit "Found valid IGD : "

def LOCAL_IP_ADDRESS_LABEL : Str := lit "Local LAN ip address : "

def EXTERNAL_IP_ADDRESS_LABEL : Str := lit "ExternalIPAddress = "

/-- The three places of `upnp.go` that run the helper (lines 107, 59 and 77). -/
inductive CallSite
  | updateStatus
  | AddPortMapping
  | RemovePortMapping
deriving DecidableEq, Repr

/-- One run of the helper: where it was started and its argument list. -/
structure Invocation where
  site : CallSite
  params : List Str
deriving DecidableEq, Repr

/-- What the helper executable does: from the argument lists of the runs made
before and the argument list of this run, the combined output and the error of
`Command(params...).CombinedOutput()`. -/
abbrev Helper := List (List Str) → List Str → Str × error

/-- The struct `upnpIGD`; `upnpc` is the list of helper runs made through the
handle, oldest first. -/
structure upnpIGD where
  upnpc : List Invocation
  igdUrl : Str
  internalIP : Str
  externalIP : Str
deriving DecidableEq, Repr

/-- The expression `igd.upnpc.Command(params...).CombinedOutput()`. -/
def CombinedOutput (h : Helper) (site : CallSite) (igd : upnpIGD) (params : List Str) :
    (Str × error) × upnpIGD :=
  (h (igd.upnpc.map Invocation.params) params,
   { igd with upnpc := igd.upnpc ++ [⟨site, params⟩] })

/-! ## The functions of `upnp.go` -/

/-- Lines 130-147. -/
def extractFromStatusResponse (resp label : Str) : Str × error :=
  let i := Index resp label
  if i < 0 then
    ([], some (label ++ lit " not available from upnpc"))
  else
    let resp := sliceFrom resp (i + label.length)
    let sr := Index resp (lit "\r")
    let sn := Index resp (lit "\n")
    let s := if sr < 0 then sn else sr
    if s < 0 then
      ([], some (lit "Unable to find newline after " ++ label))
    else
      (sliceTo resp s, none)

/-- Lines 101-128.  A field assigned in an `if x, err = f(); err != nil` header
is assigned before the test, also when `f` reports an error. -/
def updateStatus (h : Helper) (igd : upnpIGD) : error × upnpIGD :=
  let skipDiscovery : Bool := igd.igdUrl != []
  let params := if skipDiscovery then [lit "-url", igd.igdUrl, lit "-s"] else [lit "-s"]
  let res := CombinedOutput h CallSite.updateStatus igd params
  let out := res.1.1
  let igd1 := res.2
  match res.1.2 with
  | some err =>
    if skipDiscovery = true then
      updateStatus h { igd1 with igdUrl := [] }
    else
      (some (lit "Unable to call upnpc to get status: " ++ err ++ lit "\n" ++ out), igd1)
  | none =>
    let resp := out
    let r1 := extractFromStatusResponse resp IGD_URL_LABEL
    let igd2 := { igd1 with igdUrl := r1.1 }
    match r1.2 with
    | some e => (some e, igd2)
    | none =>
      let r2 := extractFromStatusResponse resp LOCAL_IP_ADDRESS_LABEL
      let igd3 := { igd2 with internalIP := r2.1 }
      match r2.2 with
      | some e => (some e, igd3)
      | none =>
        let r3 := extractFromStatusResponse resp EXTERNAL_IP_ADDRESS_LABEL
        let igd4 := { igd3 with externalIP := r3.1 }
        match r3.2 with
        | some e => (some e, igd4)
        | none => (none, igd4)
termination_by (if igd.igdUrl = [] then 0 else 1)
decreasing_by
  rename_i hs
  have hne : igd.igdUrl ≠ [] := by simpa [skipDiscovery] using hs
  simp [CombinedOutput, hne]

/-- Lines 91-98. -/
def updateStatusIfNecessary (h : Helper) (igd : upnpIGD) : error × upnpIGD :=
  if igd.igdUrl = [] then updateStatus h igd else (none, igd)

/-- Lines 26-38.  `Asset` and `NewByteExec` stand for the two outside calls; a
fresh handle has run nothing yet.  The record is returned also when the first
refresh fails (`igd` is a named result). -/
def newUpnpIGD (Asset : Str → Str × error) (NewByteExec : Str → error) (h : Helper) :
    Option upnpIGD × error :=
  let a := Asset (lit "upnpc")
  match a.2 with
  | some err => (none, some err)
  | none =>
    match NewByteExec a.1 with
    | some err => (none, some err)
    | none =>
      let igd : upnpIGD := { upnpc := [], igdUrl := [], internalIP := [], externalIP := [] }
      let r := updateStatus h igd
      (some r.2, r.1)

/-- Lines 40-46. -/
def GetExternalIP (h : Helper) (igd : upnpIGD) : (Str × error) × upnpIGD :=
  let r := updateStatusIfNecessary h igd
  match r.1 with
  | some err => (([], some err), r.2)
  | none => ((r.2.externalIP, none), r.2)

/-- Lines 48-67.  `expiration` is a `time.Duration`; Go's `/` on integers
truncates toward zero. -/
def AddPortMapping (h : Helper) (igd : upnpIGD) (proto : protocol) (internalIP : Str)
    (internalPort externalPort : Int) (expiration : Int) : error × upnpIGD :=
  let r := updateStatusIfNecessary h igd
  match r.1 with
  | some err => (some (lit "Unable to add port mapping: " ++ err), r.2)
  | none =>
    let igd1 := r.2
    let params := [lit "-url", igd1.igdUrl,
      lit "-a", internalIP, Sprintf_d internalPort, Sprintf_d externalPort, proto]
    let params := if 0 < expiration then params ++ [Sprintf_d (Int.tdiv expiration Second)]
      else params
    let res := CombinedOutput h CallSite.AddPortMapping igd1 params
    let out := res.1.1
    match res.1.2 with
    | some err => (some (lit "Unable to add port mapping: " ++ err ++ lit "\n" ++ out), res.2)
    | none =>
      if Contains out (lit "failed with") then
        (some (lit "Unable to add port mapping: \n" ++ out), res.2)
      else
        (none, res.2)

/-- Lines 69-85. -/
def RemovePortMapping (h : Helper) (igd : upnpIGD) (proto : protocol) (externalPort : Int) :
    error × upnpIGD :=
  let r := updateStatusIfNecessary h igd
  match r.1 with
  | some err => (some (lit "Unable to add port mapping: " ++ err), r.2)
  | none =>
    let igd1 := r.2
    let params := [lit "-url", igd1.igdUrl, lit "-d", Sprintf_d externalPort, proto]
    let res := CombinedOutput h CallSite.RemovePortMapping igd1 params
    let out := res.1.1
    match res.1.2 with
    | some err => (some (lit "Unable to remove port mapping: " ++ err ++ lit "\n" ++ out), res.2)
    | none =>
      if !Contains out (lit "UPNP_DeletePortMapping() returned : 0") then
        (some (lit "Unable to remove port mapping: \n" ++ out), res.2)
      else
        (none, res.2)

/-! ## Definitions used to state the properties -/

/-- The part of `resp` that follows its first instance of `label`. -/
def afterLabel (resp label : Str) : Str :=
  resp.drop ((Index resp label).toNat + label.length)

/-- Lines 117-127 of `updateStatus` on their own: the three extractions from a
response, each stored in its field before its error is looked at. -/
def storeStatus (igd : upnpIGD) (resp : Str) : error × upnpIGD :=
  let r1 := extractFromStatusResponse resp IGD_URL_LABEL
  let igd2 := { igd with igdUrl := r1.1 }
  match r1.2 with
  | some e => (some e, igd2)
  | none =>
    let r2 := extractFromStatusResponse resp LOCAL_IP_ADDRESS_LABEL
    let igd3 := { igd2 with internalIP := r2.1 }
    match r2.2 with
    | some e => (some e, igd3)
    | none =>
      let r3 := extractFromStatusResponse resp EXTERNAL_IP_ADDRESS_LABEL
      let igd4 := { igd3 with externalIP := r3.1 }
      match r3.2 with
      | some e => (some e, igd4)
      | none => (none, igd4)

/-- The body of `updateStatus` for a record without a cached URL: one run of
the helper with `-s`, no recursion. -/
def discover (h : Helper) (igd : upnpIGD) : error × upnpIGD :=
  let res := CombinedOutput h CallSite.updateStatus igd [lit "-s"]
  match res.1.2 with
  | some err =>
    (some (lit "Unable to call upnpc to get status: " ++ err ++ lit "\n" ++ res.1.1), res.2)
  | none => storeStatus res.2 res.1.1

/-- The body of `updateStatus` for a record with a cached URL: one run with
`-url <url> -s` and, when it fails, the run without URL on the cleared record. -/
def rediscover (h : Helper) (igd : upnpIGD) : error × upnpIGD :=
  let res := CombinedOutput h CallSite.updateStatus igd [lit "-url", igd.igdUrl, lit "-s"]
  match res.1.2 with
  | some _ => discover h { res.2 with igdUrl := [] }
  | none => storeStatus res.2 res.1.1

/-- The argument list of an add-mapping run as the specification words it:
`-url <url> -a <internalIP> <internalPort> <externalPort> <PROTO>`, followed by
the whole seconds of the expiration, rounded down, only when it is positive. -/
def addMappingArgs (url : Str) (proto : protocol) (internalIP : Str)
    (internalPort externalPort : Int) (expiration : Int) : List Str :=
  [lit "-url", url, lit "-a", internalIP, Sprintf_d internalPort, Sprintf_d externalPort,
    proto] ++
  (if 0 < expiration then [Sprintf_d (Int.floor ((expiration : ℚ) / (Second : ℚ)))] else [])

/-- The argument list of a remove-mapping run as the specification words it:
`-url <url> -d <externalPort> <PROTO>`. -/
def removeMappingArgs (url : Str) (proto : protocol) (externalPort : Int) : List Str :=
  [lit "-url", url, lit "-d", Sprintf_d externalPort, proto]

/-- The record a construction starts from: nothing run, all fields empty. -/
def fresh : upnpIGD := { upnpc := [], igdUrl := [], internalIP := [], externalIP := [] }

/-- A call of one of the three public methods, with its arguments. -/
inductive Op
  | GetExternalIP
  | AddPortMapping (proto : protocol) (internalIP : Str) (internalPort externalPort : Int)
      (expiration : Int)
  | RemovePortMapping (proto : protocol) (externalPort : Int)

/-- The record after one public call. -/
def Op.run (h : Helper) (igd : upnpIGD) : Op → upnpIGD
  | Op.GetExternalIP => (Igdman.GetExternalIP h igd).2
  | Op.AddPortMapping proto internalIP internalPort externalPort expiration =>
    (Igdman.AddPortMapping h igd proto internalIP internalPort externalPort expiration).2
  | Op.RemovePortMapping proto externalPort =>
    (Igdman.RemovePortMapping h igd proto externalPort).2

/-- The record after a sequence of public calls, made in order. -/
def runOps (h : Helper) (ops : List Op) (igd : upnpIGD) : upnpIGD :=
  ops.foldl (Op.run h) igd

/-- Every status run noted in the record has the argument list `-s` alone. -/
def statusRunsPlain (igd : upnpIGD) : Prop :=
  ∀ inv ∈ igd.upnpc, inv.site = CallSite.updateStatus → inv.params = [lit "-s"]

/-! ## `strings.Index` -/

theorem firstOcc_prefix (s substr : Str) (i : Nat) (hi : firstOcc s substr = some i) :
    substr <+: s.drop i ∧ ∀ j, j < i → ¬ substr <+: s.drop j := by
  induction s generalizing i with
  | nil =>
    by_cases hs : substr = []
    · simp [firstOcc, hs] at hi
      subst hi
      simp [hs]
    · simp [firstOcc, hs] at hi
  | cons c s ih =>
    by_cases hp : substr.isPrefixOf (c :: s) = true
    · simp only [firstOcc, hp, if_true, Option.some.injEq] at hi
      subst hi
      exact ⟨by simpa using List.isPrefixOf_iff_prefix.mp hp, by simp⟩
    · simp only [firstOcc, hp, Bool.false_eq_true, if_false, Option.map_eq_some'] at hi
      obtain ⟨k, hk, rfl⟩ := hi
      obtain ⟨h1, h2⟩ := ih k hk
      refine ⟨by simpa using h1, ?_⟩
      intro j hj
      cases j with
      | zero =>
        intro hpre
        exact hp (List.isPrefixOf_iff_prefix.mpr (by simpa using hpre))
      | succ j => simpa using h2 j (by omega)

theorem firstOcc_none (s substr : Str) (hn : firstOcc s substr = none) (j : Nat) :
    ¬ substr <+: s.drop j := by
  induction s generalizing j with
  | nil =>
    by_cases hs : substr = []
    · simp [firstOcc, hs] at hn
    · simpa using hs
  | cons c s ih =>
    by_cases hp : substr.isPrefixOf (c :: s) = true
    · simp [firstOcc, hp] at hn
    · simp only [firstOcc, hp, Bool.false_eq_true, if_false, Option.map_eq_none'] at hn
      cases j with
      | zero =>
        intro hpre
        exact hp (List.isPrefixOf_iff_prefix.mpr (by simpa using hpre))
      | succ j => simpa using ih hn j

/-- The model of `strings.Index` meets the library contract: a result `i ≥ 0`
is a place where `substr` starts and no earlier place is one; a negative result
is `-1` and `substr` starts nowhere in `s`. -/
theorem Index_contract (s substr : Str) :
    (0 ≤ Index s substr →
      substr <+: s.drop (Index s substr).toNat ∧
      ∀ j, j < (Index s substr).toNat → ¬ substr <+: s.drop j) ∧
    (Index s substr < 0 → Index s substr = -1 ∧ ∀ j, ¬ substr <+: s.drop j) := by
  unfold Index
  cases hf : firstOcc s substr with
  | none =>
    refine ⟨fun h0 => absurd h0 (by simp), fun _ => ⟨rfl, firstOcc_none s substr hf⟩⟩
  | some i =>
    refine ⟨fun _ => by simpa using firstOcc_prefix s substr i hf, fun hneg => ?_⟩
    simp only at hneg
    omega

theorem firstOcc_single (c : Char) (s : Str) :
    firstOcc s [c] = if c ∈ s then some (s.takeWhile (· != c)).length else none := by
  induction s with
  | nil => simp [firstOcc]
  | cons a s ih =>
    by_cases hca : c = a
    · subst hca
      simp [firstOcc, List.isPrefixOf]
    · have hac : a ≠ c := fun e => hca e.symm
      simp [firstOcc, List.isPrefixOf, hca, hac, ih, List.takeWhile_cons]

theorem Index_single (c : Char) (s : Str) :
    Index s [c] = if c ∈ s then ((s.takeWhile (· != c)).length : Int) else -1 := by
  unfold Index
  rw [firstOcc_single]
  by_cases hc : c ∈ s <;> simp [hc]

theorem take_length_takeWhile (p : Char → Bool) (s : Str) :
    s.take (s.takeWhile p).length = s.takeWhile p := by
  induction s with
  | nil => simp
  | cons a s ih =>
    by_cases hpa : p a = true
    · simp [List.takeWhile_cons, hpa, ih]
    · simp [List.takeWhile_cons, hpa]

theorem not_mem_takeWhile_ne (c : Char) (s : Str) : c ∉ s.takeWhile (· != c) := by
  intro hmem
  have := List.mem_takeWhile_imp hmem
  simp at this

theorem takeWhile_and_of_forall (p q : Char → Bool) (s : Str)
    (hq : ∀ x ∈ s.takeWhile p, q x = true) :
    s.takeWhile (fun x => p x && q x) = s.takeWhile p := by
  induction s with
  | nil => simp
  | cons a s ih =>
    by_cases hpa : p a = true
    · have hqa : q a = true := hq a (by simp [List.takeWhile_cons, hpa])
      have hrest : ∀ x ∈ s.takeWhile p, q x = true := fun x hx =>
        hq x (by simp [List.takeWhile_cons, hpa, hx])
      simp [List.takeWhile_cons, hpa, hqa, ih hrest]
    · simp [List.takeWhile_cons, hpa]

/-! ## `extractFromStatusResponse` -/

theorem sliceFrom_after (resp label : Str) (hi : 0 ≤ Index resp label) :
    sliceFrom resp (Index resp label + label.length) = afterLabel resp label := by
  unfold sliceFrom afterLabel
  congr 1
  omega

theorem extract_of_missing (resp label : Str) (hi : Index resp label < 0) :
    extractFromStatusResponse resp label =
      ([], some (label ++ lit " not available from upnpc")) := by
  simp [extractFromStatusResponse, hi]

theorem extract_of_found (resp label : Str) (hi : 0 ≤ Index resp label) :
    extractFromStatusResponse resp label =
      if '\r' ∈ afterLabel resp label then
        ((afterLabel resp label).takeWhile (· != '\r'), none)
      else if '\n' ∈ afterLabel resp label then
        ((afterLabel resp label).takeWhile (· != '\n'), none)
      else ([], some (lit "Unable to find newline after " ++ label)) := by
  have hcr : lit "\r" = ['\r'] := rfl
  have hlf : lit "\n" = ['\n'] := rfl
  simp only [extractFromStatusResponse, not_lt.mpr hi, if_false, sliceFrom_after resp label hi,
    hcr, hlf, Index_single, sliceTo]
  by_cases hr : '\r' ∈ afterLabel resp label
  · have h0 : ¬ ((List.takeWhile (· != '\r') (afterLabel resp label)).length : Int) < 0 := by
      omega
    simp only [hr, if_true, h0, if_false, Int.toNat_ofNat, take_length_takeWhile]
  · by_cases hn : '\n' ∈ afterLabel resp label
    · have h0 : ¬ ((List.takeWhile (· != '\n') (afterLabel resp label)).length : Int) < 0 := by
        omega
      simp [hr, hn, h0, take_length_takeWhile]
    · simp [hr, hn]

theorem mem_of_mem_takeWhile (p : Char → Bool) (s : Str) (c : Char)
    (hc : c ∈ s.takeWhile p) : c ∈ s :=
  (List.takeWhile_sublist p).subset hc

/-- C1, as stated, fails: in a response whose text after the label has a line
feed before a carriage return, `extractFromStatusResponse` does not stop at the
first terminator.  For the external-IP label and the response
`"ExternalIPAddress = 1.2.3.4\nmore\r\n"` the premises of the claim hold, the
text up to the first terminator is `"1.2.3.4"`, and the function returns
`"1.2.3.4\nmore"`, which contains a line feed. -/
theorem extract_stops_at_first_terminator_refuted :
    0 ≤ Index (lit "ExternalIPAddress = 1.2.3.4\nmore\r\n") EXTERNAL_IP_ADDRESS_LABEL ∧
    (∃ c ∈ afterLabel (lit "ExternalIPAddress = 1.2.3.4\nmore\r\n") EXTERNAL_IP_ADDRESS_LABEL,
      c = '\r' ∨ c = '\n') ∧
    (afterLabel (lit "ExternalIPAddress = 1.2.3.4\nmore\r\n")
      EXTERNAL_IP_ADDRESS_LABEL).takeWhile (fun c => c != '\r' && c != '\n') = lit "1.2.3.4" ∧
    extractFromStatusResponse (lit "ExternalIPAddress = 1.2.3.4\nmore\r\n")
      EXTERNAL_IP_ADDRESS_LABEL = (lit "1.2.3.4\nmore", none) ∧
    extractFromStatusResponse (lit "ExternalIPAddress = 1.2.3.4\nmore\r\n")
      EXTERNAL_IP_ADDRESS_LABEL ≠ (lit "1.2.3.4", none) ∧
    '\n' ∈ (extractFromStatusResponse (lit "ExternalIPAddress = 1.2.3.4\nmore\r\n")
      EXTERNAL_IP_ADDRESS_LABEL).1 := by
  decide

/-- C1, amended: when `resp` contains `label` and a carriage return or a line
feed occurs after the first instance of `label`, `extractFromStatusResponse`
returns without error the text that starts right after that instance and ends
just before the first carriage return after it when there is one, and otherwise
just before the first line feed.  The returned text never contains a carriage
return; when no line feed stands before the first carriage return (or there is
no carriage return) it is the text up to the first terminator of either kind and
contains no line feed either. -/
theorem extract_prefers_carriage_return (resp label : Str)
    (hi : 0 ≤ Index resp label)
    (ht : ∃ c ∈ afterLabel resp label, c = '\r' ∨ c = '\n') :
    extractFromStatusResponse resp label =
      (if '\r' ∈ afterLabel resp label then (afterLabel resp label).takeWhile (· != '\r')
       else (afterLabel resp label).takeWhile (· != '\n'), none) ∧
    '\r' ∉ (extractFromStatusResponse resp label).1 ∧
    (('\r' ∉ afterLabel resp label ∨
        '\n' ∉ (afterLabel resp label).takeWhile (· != '\r')) →
      (extractFromStatusResponse resp label).1 =
        (afterLabel resp label).takeWhile (fun c => c != '\r' && c != '\n') ∧
      '\n' ∉ (extractFromStatusResponse resp label).1) := by
  rw [extract_of_found resp label hi]
  by_cases hr : '\r' ∈ afterLabel resp label
  · simp only [hr, if_true, not_true_eq_false, false_or]
    refine ⟨trivial, not_mem_takeWhile_ne _ _, fun hlf => ⟨?_, hlf⟩⟩
    refine (takeWhile_and_of_forall (· != '\r') (· != '\n') _ ?_).symm
    intro x hx
    have : x ≠ '\n' := fun e => hlf (e ▸ hx)
    simpa using this
  · have hn : '\n' ∈ afterLabel resp label := by
      obtain ⟨c, hc, rfl | rfl⟩ := ht
      · exact absurd hc hr
      · exact hc
    simp only [hr, if_false, hn, if_true, not_false_eq_true, true_or, true_implies]
    have hnocr : '\r' ∉ (afterLabel resp label).takeWhile (· != '\n') :=
      fun hmem => hr (mem_of_mem_takeWhile _ _ _ hmem)
    refine ⟨trivial, hnocr, ?_, not_mem_takeWhile_ne _ _⟩
    have hswap : (fun c : Char => c != '\r' && c != '\n') =
        (fun c : Char => c != '\n' && c != '\r') := by
      funext c
      exact Bool.and_comm _ _
    rw [hswap]
    refine (takeWhile_and_of_forall (· != '\n') (· != '\r') _ ?_).symm
    intro x hx
    have : x ≠ '\r' := fun e => hnocr (e ▸ hx)
    simpa using this

/-- Witness for C1: a response whose line ends in a carriage return and a line
feed. -/
theorem extract_prefers_carriage_return_witness :
    extractFromStatusResponse (lit "Found valid IGD : http://192.168.1.1:5000/ctl\r\n")
        IGD_URL_LABEL =
      (if '\r' ∈ afterLabel (lit "Found valid IGD : http://192.168.1.1:5000/ctl\r\n")
          IGD_URL_LABEL then
        (afterLabel (lit "Found valid IGD : http://192.168.1.1:5000/ctl\r\n")
          IGD_URL_LABEL).takeWhile (· != '\r')
       else (afterLabel (lit "Found valid IGD : http://192.168.1.1:5000/ctl\r\n")
          IGD_URL_LABEL).takeWhile (· != '\n'), none) ∧
    extractFromStatusResponse (lit "Found valid IGD : http://192.168.1.1:5000/ctl\r\n")
        IGD_URL_LABEL = (lit "http://192.168.1.1:5000/ctl", none) :=
  ⟨(extract_prefers_carriage_return
      (lit "Found valid IGD : http://192.168.1.1:5000/ctl\r\n") IGD_URL_LABEL
      (by decide) (by decide)).1, by decide⟩

/-! ## `updateStatus` unfolded -/

theorem updateStatus_of_empty (h : Helper) (igd : upnpIGD) (hu : igd.igdUrl = []) :
    updateStatus h igd = discover h igd := by
  rw [updateStatus]
  simp only [hu, bne_self_eq_false, Bool.false_eq_true, if_false, discover, storeStatus]

theorem updateStatus_of_cached (h : Helper) (igd : upnpIGD) (hu : igd.igdUrl ≠ []) :
    updateStatus h igd = rediscover h igd := by
  have hb : (igd.igdUrl != []) = true := by simpa using hu
  rw [updateStatus]
  simp only [hb, if_true, rediscover, storeStatus]
  cases hres : (CombinedOutput h CallSite.updateStatus igd
      [lit "-url", igd.igdUrl, lit "-s"]).1.2 with
  | none => rfl
  | some err =>
    simp only []
    rw [updateStatus_of_empty h _ rfl]

/-! ## When an extraction fails -/

theorem extract_error_value (resp label : Str)
    (he : (extractFromStatusResponse resp label).2 ≠ none) :
    (extractFromStatusResponse resp label).1 = [] := by
  by_cases hi : 0 ≤ Index resp label
  · rw [extract_of_found resp label hi] at he ⊢
    by_cases hr : '\r' ∈ afterLabel resp label
    · simp [hr] at he
    · by_cases hn : '\n' ∈ afterLabel resp label
      · simp [hr, hn] at he
      · simp [hr, hn]
  · rw [extract_of_missing resp label (by omega)]

theorem extract_ok_iff (resp label : Str) :
    (extractFromStatusResponse resp label).2 = none ↔
      0 ≤ Index resp label ∧ ∃ c ∈ afterLabel resp label, c = '\r' ∨ c = '\n' := by
  by_cases hi : 0 ≤ Index resp label
  · rw [extract_of_found resp label hi]
    by_cases hr : '\r' ∈ afterLabel resp label
    · simp only [hr, if_true, hi, true_and, true_iff]
      exact ⟨_, hr, Or.inl rfl⟩
    · by_cases hn : '\n' ∈ afterLabel resp label
      · simp only [hr, if_false, hn, if_true, hi, true_and, true_iff]
        exact ⟨_, hn, Or.inr rfl⟩
      · simp only [hr, hn, if_false, hi, true_and]
        constructor
        · intro hc
          cases hc
        · rintro ⟨c, hc, rfl | rfl⟩
          · exact absurd hc hr
          · exact absurd hc hn
  · rw [extract_of_missing resp label (by omega)]
    simp [hi]

theorem extract_error_of_missing (resp label : Str) (hi : Index resp label < 0) :
    (extractFromStatusResponse resp label).2 ≠ none := by
  rw [extract_of_missing resp label hi]
  simp

/-- What lines 117-127 leave behind, by the first extraction that fails. -/
theorem storeStatus_fields (igd : upnpIGD) (resp : Str) :
    (storeStatus igd resp).2.upnpc = igd.upnpc ∧
    ((extractFromStatusResponse resp IGD_URL_LABEL).2 ≠ none →
      (storeStatus igd resp).1 = (extractFromStatusResponse resp IGD_URL_LABEL).2 ∧
      (storeStatus igd resp).2.igdUrl = [] ∧
      (storeStatus igd resp).2.internalIP = igd.internalIP ∧
      (storeStatus igd resp).2.externalIP = igd.externalIP) ∧
    ((extractFromStatusResponse resp IGD_URL_LABEL).2 = none →
      (extractFromStatusResponse resp LOCAL_IP_ADDRESS_LABEL).2 ≠ none →
      (storeStatus igd resp).1 = (extractFromStatusResponse resp LOCAL_IP_ADDRESS_LABEL).2 ∧
      (storeStatus igd resp).2.igdUrl = (extractFromStatusResponse resp IGD_URL_LABEL).1 ∧
      (storeStatus igd resp).2.internalIP = [] ∧
      (storeStatus igd resp).2.externalIP = igd.externalIP) ∧
    ((extractFromStatusResponse resp IGD_URL_LABEL).2 = none →
      (extractFromStatusResponse resp LOCAL_IP_ADDRESS_LABEL).2 = none →
      (storeStatus igd resp).1 = (extractFromStatusResponse resp EXTERNAL_IP_ADDRESS_LABEL).2 ∧
      (storeStatus igd resp).2.igdUrl = (extractFromStatusResponse resp IGD_URL_LABEL).1 ∧
      (storeStatus igd resp).2.internalIP =
        (extractFromStatusResponse resp LOCAL_IP_ADDRESS_LABEL).1 ∧
      (storeStatus igd resp).2.externalIP =
        (extractFromStatusResponse resp EXTERNAL_IP_ADDRESS_LABEL).1) := by
  have hv1 := extract_error_value resp IGD_URL_LABEL
  have hv2 := extract_error_value resp LOCAL_IP_ADDRESS_LABEL
  simp only [storeStatus]
  cases h1 : (extractFromStatusResponse resp IGD_URL_LABEL).2 with
  | some e1 =>
    have hv1 := hv1 (by simp [h1])
    simp [hv1]
  | none =>
    cases h2 : (extractFromStatusResponse resp LOCAL_IP_ADDRESS_LABEL).2 with
    | some e2 =>
      have hv2 := hv2 (by simp [h2])
      simp [hv2]
    | none =>
      cases h3 : (extractFromStatusResponse resp EXTERNAL_IP_ADDRESS_LABEL).2 with
      | some e3 => simp
      | none => simp

/-! ## A successful status run whose output lacks a label -/

/-- Whichever status run of `updateStatus` succeeds first, the call ends in
lines 117-127 applied to its output, on a record whose two IP fields are still
those before the call. -/
theorem updateStatus_of_reply (h : Helper) (igd : upnpIGD) (out : Str)
    (hrun :
      (igd.igdUrl = [] ∧ h (igd.upnpc.map Invocation.params) [lit "-s"] = (out, none)) ∨
      (igd.igdUrl ≠ [] ∧
        h (igd.upnpc.map Invocation.params) [lit "-url", igd.igdUrl, lit "-s"] = (out, none)) ∨
      (igd.igdUrl ≠ [] ∧
        (h (igd.upnpc.map Invocation.params) [lit "-url", igd.igdUrl, lit "-s"]).2 ≠ none ∧
        h (igd.upnpc.map Invocation.params ++ [[lit "-url", igd.igdUrl, lit "-s"]])
          [lit "-s"] = (out, none))) :
    ∃ igd1 : upnpIGD, updateStatus h igd = storeStatus igd1 out ∧
      igd1.internalIP = igd.internalIP ∧ igd1.externalIP = igd.externalIP := by
  rcases hrun with ⟨hu, hr⟩ | ⟨hu, hr⟩ | ⟨hu, hfail, hr⟩
  · rw [updateStatus_of_empty h igd hu]
    simp only [discover, CombinedOutput, hr]
    exact ⟨_, rfl, rfl, rfl⟩
  · rw [updateStatus_of_cached h igd hu]
    simp only [rediscover, CombinedOutput, hr]
    exact ⟨_, rfl, rfl, rfl⟩
  · rw [updateStatus_of_cached h igd hu]
    obtain ⟨e, he⟩ := Option.ne_none_iff_exists'.mp hfail
    simp only [rediscover, CombinedOutput, he, discover, List.map_append, List.map_cons,
      List.map_nil, hr]
    exact ⟨_, rfl, rfl, rfl⟩

/-- C2, as stated, fails: a record with the cached values `10.0.0.2` and
`1.2.3.4` and no cached URL, and a helper that succeeds with an output that
has the gateway and external-IP labels but not the local-IP label.
`updateStatus` returns an error, yet the URL field now holds the new URL and
the internal IP has been emptied. -/
theorem updateStatus_keeps_fields_refuted :
    ((fun _ _ => (lit "Found valid IGD : http://x\nExternalIPAddress = 5.6.7.8\n", none)) :
      Helper) [] [lit "-s"] =
      (lit "Found valid IGD : http://x\nExternalIPAddress = 5.6.7.8\n", none) ∧
    Index (lit "Found valid IGD : http://x\nExternalIPAddress = 5.6.7.8\n")
      LOCAL_IP_ADDRESS_LABEL < 0 ∧
    (updateStatus (fun _ _ =>
        (lit "Found valid IGD : http://x\nExternalIPAddress = 5.6.7.8\n", none))
      ⟨[], [], lit "10.0.0.2", lit "1.2.3.4"⟩).1 ≠ none ∧
    (updateStatus (fun _ _ =>
        (lit "Found valid IGD : http://x\nExternalIPAddress = 5.6.7.8\n", none))
      ⟨[], [], lit "10.0.0.2", lit "1.2.3.4"⟩).2.igdUrl = lit "http://x" ∧
    (updateStatus (fun _ _ =>
        (lit "Found valid IGD : http://x\nExternalIPAddress = 5.6.7.8\n", none))
      ⟨[], [], lit "10.0.0.2", lit "1.2.3.4"⟩).2.internalIP = [] ∧
    (updateStatus (fun _ _ =>
        (lit "Found valid IGD : http://x\nExternalIPAddress = 5.6.7.8\n", none))
      ⟨[], [], lit "10.0.0.2", lit "1.2.3.4"⟩).2.externalIP = lit "1.2.3.4" := by
  rw [updateStatus_of_empty _ _ rfl]
  decide

/-- C2, amended: when the status run that `updateStatus` ends on succeeds with
an output that lacks at least one of the three labels, `updateStatus` returns
an error, and the fields are left by the first extraction that fails, in the
order gateway URL, internal IP, external IP: the fields extracted before it
hold the newly extracted values, its own field is the empty string, and the
fields after it equal their values before the call. -/
theorem updateStatus_missing_label (h : Helper) (igd : upnpIGD) (out : Str)
    (hrun :
      (igd.igdUrl = [] ∧ h (igd.upnpc.map Invocation.params) [lit "-s"] = (out, none)) ∨
      (igd.igdUrl ≠ [] ∧
        h (igd.upnpc.map Invocation.params) [lit "-url", igd.igdUrl, lit "-s"] = (out, none)) ∨
      (igd.igdUrl ≠ [] ∧
        (h (igd.upnpc.map Invocation.params) [lit "-url", igd.igdUrl, lit "-s"]).2 ≠ none ∧
        h (igd.upnpc.map Invocation.params ++ [[lit "-url", igd.igdUrl, lit "-s"]])
          [lit "-s"] = (out, none)))
    (hlack : Index out IGD_URL_LABEL < 0 ∨ Index out LOCAL_IP_ADDRESS_LABEL < 0 ∨
      Index out EXTERNAL_IP_ADDRESS_LABEL < 0) :
    (updateStatus h igd).1 ≠ none ∧
    ((extractFromStatusResponse out IGD_URL_LABEL).2 ≠ none →
      (updateStatus h igd).2.igdUrl = [] ∧
      (updateStatus h igd).2.internalIP = igd.internalIP ∧
      (updateStatus h igd).2.externalIP = igd.externalIP) ∧
    ((extractFromStatusResponse out IGD_URL_LABEL).2 = none →
      (extractFromStatusResponse out LOCAL_IP_ADDRESS_LABEL).2 ≠ none →
      (updateStatus h igd).2.igdUrl = (extractFromStatusResponse out IGD_URL_LABEL).1 ∧
      (updateStatus h igd).2.internalIP = [] ∧
      (updateStatus h igd).2.externalIP = igd.externalIP) ∧
    ((extractFromStatusResponse out IGD_URL_LABEL).2 = none →
      (extractFromStatusResponse out LOCAL_IP_ADDRESS_LABEL).2 = none →
      (updateStatus h igd).2.igdUrl = (extractFromStatusResponse out IGD_URL_LABEL).1 ∧
      (updateStatus h igd).2.internalIP =
        (extractFromStatusResponse out LOCAL_IP_ADDRESS_LABEL).1 ∧
      (updateStatus h igd).2.externalIP = []) := by
  obtain ⟨igd1, heq, hint, hext⟩ := updateStatus_of_reply h igd out hrun
  obtain ⟨-, hA, hB, hC⟩ := storeStatus_fields igd1 out
  rw [heq]
  have h3 : (extractFromStatusResponse out IGD_URL_LABEL).2 = none →
      (extractFromStatusResponse out LOCAL_IP_ADDRESS_LABEL).2 = none →
      (extractFromStatusResponse out EXTERNAL_IP_ADDRESS_LABEL).2 ≠ none := by
    intro h1 h2
    rcases hlack with hl | hl | hl
    · exact absurd h1 (extract_error_of_missing out _ hl)
    · exact absurd h2 (extract_error_of_missing out _ hl)
    · exact extract_error_of_missing out _ hl
  refine ⟨?_, ?_, ?_, ?_⟩
  · by_cases h1 : (extractFromStatusResponse out IGD_URL_LABEL).2 = none
    · by_cases h2 : (extractFromStatusResponse out LOCAL_IP_ADDRESS_LABEL).2 = none
      · rw [(hC h1 h2).1]
        exact h3 h1 h2
      · rw [(hB h1 h2).1]
        exact h2
    · rw [(hA h1).1]
      exact h1
  · intro h1
    obtain ⟨-, hu, hi, he⟩ := hA h1
    exact ⟨hu, hi.trans hint, he.trans hext⟩
  · intro h1 h2
    obtain ⟨-, hu, hi, he⟩ := hB h1 h2
    exact ⟨hu, hi, he.trans hext⟩
  · intro h1 h2
    obtain ⟨-, hu, hi, he⟩ := hC h1 h2
    exact ⟨hu, hi, he.trans (extract_error_value out _ (h3 h1 h2))⟩

/-- Witness for C2: the fresh record and a helper whose output has only the
gateway line. -/
theorem updateStatus_missing_label_witness :
    (updateStatus (fun _ _ => (lit "Found valid IGD : http://x\n", none)) ⟨[], [], [], []⟩).1
      ≠ none ∧
    (updateStatus (fun _ _ => (lit "Found valid IGD : http://x\n", none))
      ⟨[], [], [], []⟩).2.igdUrl = lit "http://x" :=
  ⟨(updateStatus_missing_label (fun _ _ => (lit "Found valid IGD : http://x\n", none))
      ⟨[], [], [], []⟩ (lit "Found valid IGD : http://x\n")
      (Or.inl ⟨rfl, rfl⟩) (Or.inr (Or.inl (by decide)))).1,
   ((updateStatus_missing_label (fun _ _ => (lit "Found valid IGD : http://x\n", none))
      ⟨[], [], [], []⟩ (lit "Found valid IGD : http://x\n")
      (Or.inl ⟨rfl, rfl⟩) (Or.inr (Or.inl (by decide)))).2.2.1 (by decide) (by decide)).1⟩

/-! ## `AddPortMapping` and `RemovePortMapping` with a current status -/

theorem tdiv_Second_eq_floor (expiration : Int) (hpos : 0 < expiration) :
    Int.tdiv expiration Second = Int.floor ((expiration : ℚ) / (Second : ℚ)) := by
  have hs : (Second : ℚ) = ((1000000000 : ℕ) : ℚ) := by
    simp [Second]
  rw [hs, Rat.floor_intCast_div_natCast]
  exact Int.tdiv_eq_ediv (le_of_lt hpos) (by decide)

theorem updateStatusIfNecessary_of_cached (h : Helper) (igd : upnpIGD)
    (hu : igd.igdUrl ≠ []) : updateStatusIfNecessary h igd = (none, igd) := by
  simp [updateStatusIfNecessary, hu]

/-- With a cached URL, `AddPortMapping` is one run of the helper with the
argument list of the specification, judged by its error and its output. -/
theorem AddPortMapping_of_cached (h : Helper) (igd : upnpIGD) (proto : protocol)
    (internalIP : Str) (internalPort externalPort expiration : Int) (hu : igd.igdUrl ≠ []) :
    AddPortMapping h igd proto internalIP internalPort externalPort expiration =
      let params := addMappingArgs igd.igdUrl proto internalIP internalPort externalPort
        expiration
      let reply := h (igd.upnpc.map Invocation.params) params
      let igd1 := { igd with upnpc := igd.upnpc ++ [⟨CallSite.AddPortMapping, params⟩] }
      match reply.2 with
      | some err =>
        (some (lit "Unable to add port mapping: " ++ err ++ lit "\n" ++ reply.1), igd1)
      | none =>
        if Contains reply.1 (lit "failed with") then
          (some (lit "Unable to add port mapping: \n" ++ reply.1), igd1)
        else (none, igd1) := by
  simp only [AddPortMapping, updateStatusIfNecessary_of_cached h igd hu, CombinedOutput,
    addMappingArgs]
  by_cases hpos : 0 < expiration
  · simp only [hpos, if_true, tdiv_Second_eq_floor expiration hpos]
  · simp only [hpos, if_false, List.append_nil]

/-- With a cached URL, `RemovePortMapping` is one run of the helper with the
argument list of the specification, judged by its error and its output. -/
theorem RemovePortMapping_of_cached (h : Helper) (igd : upnpIGD) (proto : protocol)
    (externalPort : Int) (hu : igd.igdUrl ≠ []) :
    RemovePortMapping h igd proto externalPort =
      let params := removeMappingArgs igd.igdUrl proto externalPort
      let reply := h (igd.upnpc.map Invocation.params) params
      let igd1 := { igd with upnpc := igd.upnpc ++ [⟨CallSite.RemovePortMapping, params⟩] }
      match reply.2 with
      | some err =>
        (some (lit "Unable to remove port mapping: " ++ err ++ lit "\n" ++ reply.1), igd1)
      | none =>
        if !Contains reply.1 (lit "UPNP_DeletePortMapping() returned : 0") then
          (some (lit "Unable to remove port mapping: \n" ++ reply.1), igd1)
        else (none, igd1) := by
  simp only [RemovePortMapping, updateStatusIfNecessary_of_cached h igd hu, CombinedOutput,
    removeMappingArgs]

theorem AddPortMapping_record (h : Helper) (igd : upnpIGD) (proto : protocol)
    (internalIP : Str) (internalPort externalPort expiration : Int) (hu : igd.igdUrl ≠ []) :
    (AddPortMapping h igd proto internalIP internalPort externalPort expiration).2 =
      { igd with upnpc := igd.upnpc ++ [⟨CallSite.AddPortMapping,
          addMappingArgs igd.igdUrl proto internalIP internalPort externalPort expiration⟩] } := by
  rw [AddPortMapping_of_cached h igd proto internalIP internalPort externalPort expiration hu]
  simp only []
  split
  · rfl
  · split <;> rfl

theorem RemovePortMapping_record (h : Helper) (igd : upnpIGD) (proto : protocol)
    (externalPort : Int) (hu : igd.igdUrl ≠ []) :
    (RemovePortMapping h igd proto externalPort).2 =
      { igd with upnpc := igd.upnpc ++ [⟨CallSite.RemovePortMapping,
          removeMappingArgs igd.igdUrl proto externalPort⟩] } := by
  rw [RemovePortMapping_of_cached h igd proto externalPort hu]
  simp only []
  split
  · rfl
  · split <;> rfl

/-- C3: with a cached gateway URL, `AddPortMapping` runs the helper exactly
once: the record of runs grows by one entry, whose argument list is
`-url <url> -a <internalIP> <internalPort> <externalPort> <proto>` followed by
the decimal of the expiration in whole seconds, rounded down, when the
expiration is positive, and by nothing when it is zero or negative. -/
theorem AddPortMapping_arguments (h : Helper) (igd : upnpIGD) (proto : protocol)
    (internalIP : Str) (internalPort externalPort expiration : Int) (hu : igd.igdUrl ≠ []) :
    (0 < expiration →
      (AddPortMapping h igd proto internalIP internalPort externalPort expiration).2.upnpc =
        igd.upnpc ++ [⟨CallSite.AddPortMapping,
          [lit "-url", igd.igdUrl, lit "-a", internalIP, Sprintf_d internalPort,
            Sprintf_d externalPort, proto,
            Sprintf_d (Int.floor ((expiration : ℚ) / (Second : ℚ)))]⟩]) ∧
    (expiration ≤ 0 →
      (AddPortMapping h igd proto internalIP internalPort externalPort expiration).2.upnpc =
        igd.upnpc ++ [⟨CallSite.AddPortMapping,
          [lit "-url", igd.igdUrl, lit "-a", internalIP, Sprintf_d internalPort,
            Sprintf_d externalPort, proto]⟩]) := by
  rw [AddPortMapping_record h igd proto internalIP internalPort externalPort expiration hu]
  constructor
  · intro hpos
    simp [addMappingArgs, hpos]
  · intro hle
    have hn : ¬ 0 < expiration := not_lt.mpr hle
    simp [addMappingArgs, hn]

/-- Witness for C3: a mapping of port 8080 to 80 for a second and a half; the
run carries the expiration `1`. -/
theorem AddPortMapping_arguments_witness :
    (AddPortMapping (fun _ _ => (lit "ok", none)) ⟨[], lit "http://x", [], []⟩ TCP
        (lit "10.0.0.2") 80 8080 1500000000).2.upnpc =
      [] ++ [⟨CallSite.AddPortMapping,
        [lit "-url", lit "http://x", lit "-a", lit "10.0.0.2", Sprintf_d 80, Sprintf_d 8080, TCP,
          Sprintf_d (Int.floor (((1500000000 : Int) : ℚ) / (Second : ℚ)))]⟩] ∧
    (AddPortMapping (fun _ _ => (lit "ok", none)) ⟨[], lit "http://x", [], []⟩ TCP
        (lit "10.0.0.2") 80 8080 1500000000).2.upnpc =
      [⟨CallSite.AddPortMapping,
        [lit "-url", lit "http://x", lit "-a", lit "10.0.0.2", lit "80", lit "8080", lit "TCP",
          lit "1"]⟩] :=
  ⟨(AddPortMapping_arguments (fun _ _ => (lit "ok", none)) ⟨[], lit "http://x", [], []⟩ TCP
      (lit "10.0.0.2") 80 8080 1500000000 (by decide)).1 (by decide), by decide⟩

/-- C4: with a cached gateway URL, `AddPortMapping` returns no error exactly
when the run of the helper reports no error and its output does not contain
`failed with`; a run that succeeds with the output
`mapping failed with code 718` gives an error; and the three cached fields are
the same after the call in every case. -/
theorem AddPortMapping_result (h : Helper) (igd : upnpIGD) (proto : protocol)
    (internalIP : Str) (internalPort externalPort expiration : Int) (hu : igd.igdUrl ≠ []) :
    ((AddPortMapping h igd proto internalIP internalPort externalPort expiration).1 = none ↔
      (h (igd.upnpc.map Invocation.params)
        (addMappingArgs igd.igdUrl proto internalIP internalPort externalPort expiration)).2
          = none ∧
      Contains (h (igd.upnpc.map Invocation.params)
        (addMappingArgs igd.igdUrl proto internalIP internalPort externalPort expiration)).1
          (lit "failed with") = false) ∧
    (h (igd.upnpc.map Invocation.params)
        (addMappingArgs igd.igdUrl proto internalIP internalPort externalPort expiration) =
        (lit "mapping failed with code 718", none) →
      (AddPortMapping h igd proto internalIP internalPort externalPort expiration).1 ≠ none) ∧
    (AddPortMapping h igd proto internalIP internalPort externalPort expiration).2.igdUrl =
      igd.igdUrl ∧
    (AddPortMapping h igd proto internalIP internalPort externalPort expiration).2.internalIP =
      igd.internalIP ∧
    (AddPortMapping h igd proto internalIP internalPort externalPort expiration).2.externalIP =
      igd.externalIP := by
  rw [AddPortMapping_of_cached h igd proto internalIP internalPort externalPort expiration hu]
  simp only []
  cases hr : h (igd.upnpc.map Invocation.params)
      (addMappingArgs igd.igdUrl proto internalIP internalPort externalPort expiration) with
  | mk out err =>
    cases err with
    | some e =>
      refine ⟨by simp, ?_, rfl, rfl, rfl⟩
      intro heq
      cases heq
    | none =>
      by_cases hc : Contains out (lit "failed with") = true
      · refine ⟨by simp [hc], ?_, by simp [hc], by simp [hc], by simp [hc]⟩
        intro _
        simp [hc]
      · have hc2 : Contains out (lit "failed with") = false := by simpa using hc
        refine ⟨by simp [hc2], ?_, by simp [hc2], by simp [hc2], by simp [hc2]⟩
        intro heq
        have hout : out = lit "mapping failed with code 718" := congrArg Prod.fst heq
        rw [hout] at hc2
        exact absurd hc2 (by decide)

/-- Witness for C4: the helper exits successfully with
`mapping failed with code 718`, and `AddPortMapping` returns an error. -/
theorem AddPortMapping_result_witness :
    (AddPortMapping (fun _ _ => (lit "mapping failed with code 718", none))
      ⟨[], lit "http://x", lit "10.0.0.2", lit "1.2.3.4"⟩ UDP (lit "10.0.0.2") 53 5353 0).1
        ≠ none ∧
    (AddPortMapping (fun _ _ => (lit "mapping failed with code 718", none))
      ⟨[], lit "http://x", lit "10.0.0.2", lit "1.2.3.4"⟩ UDP (lit "10.0.0.2") 53 5353
        0).2.externalIP = lit "1.2.3.4" :=
  ⟨(AddPortMapping_result (fun _ _ => (lit "mapping failed with code 718", none))
      ⟨[], lit "http://x", lit "10.0.0.2", lit "1.2.3.4"⟩ UDP (lit "10.0.0.2") 53 5353 0
      (by decide)).2.1 rfl,
   (AddPortMapping_result (fun _ _ => (lit "mapping failed with code 718", none))
      ⟨[], lit "http://x", lit "10.0.0.2", lit "1.2.3.4"⟩ UDP (lit "10.0.0.2") 53 5353 0
      (by decide)).2.2.2.2⟩

/-- C5: with a cached gateway URL, `RemovePortMapping` runs the helper exactly
once, with the argument list `-url <url> -d <externalPort> <proto>`, and
returns no error exactly when that run reports no error and its output
contains `UPNP_DeletePortMapping() returned : 0`; a run that succeeds without
that text in its output gives an error, whatever else the output holds. -/
theorem RemovePortMapping_result (h : Helper) (igd : upnpIGD) (proto : protocol)
    (externalPort : Int) (hu : igd.igdUrl ≠ []) :
    (RemovePortMapping h igd proto externalPort).2.upnpc =
      igd.upnpc ++ [⟨CallSite.RemovePortMapping,
        [lit "-url", igd.igdUrl, lit "-d", Sprintf_d externalPort, proto]⟩] ∧
    ((RemovePortMapping h igd proto externalPort).1 = none ↔
      (h (igd.upnpc.map Invocation.params)
        [lit "-url", igd.igdUrl, lit "-d", Sprintf_d externalPort, proto]).2 = none ∧
      Contains (h (igd.upnpc.map Invocation.params)
        [lit "-url", igd.igdUrl, lit "-d", Sprintf_d externalPort, proto]).1
          (lit "UPNP_DeletePortMapping() returned : 0") = true) ∧
    ((h (igd.upnpc.map Invocation.params)
        [lit "-url", igd.igdUrl, lit "-d", Sprintf_d externalPort, proto]).2 = none →
      Contains (h (igd.upnpc.map Invocation.params)
        [lit "-url", igd.igdUrl, lit "-d", Sprintf_d externalPort, proto]).1
          (lit "UPNP_DeletePortMapping() returned : 0") = false →
      (RemovePortMapping h igd proto externalPort).1 ≠ none) := by
  refine ⟨by rw [RemovePortMapping_record h igd proto externalPort hu]; rfl, ?_⟩
  rw [RemovePortMapping_of_cached h igd proto externalPort hu]
  simp only [removeMappingArgs]
  cases hr : h (igd.upnpc.map Invocation.params)
      [lit "-url", igd.igdUrl, lit "-d", Sprintf_d externalPort, proto] with
  | mk out err =>
    cases err with
    | some e => simp
    | none =>
      by_cases hc : Contains out (lit "UPNP_DeletePortMapping() returned : 0") = true
      · simp [hc]
      · have hc2 : Contains out (lit "UPNP_DeletePortMapping() returned : 0") = false := by
          simpa using hc
        simp [hc2]

/-- Witness for C5: the helper exits successfully with an output that has
neither the confirmation nor a failure marker, and `RemovePortMapping` returns
an error. -/
theorem RemovePortMapping_result_witness :
    (RemovePortMapping (fun _ _ => (lit "done", none)) ⟨[], lit "http://x", [], []⟩ TCP
      8080).1 ≠ none ∧
    (RemovePortMapping (fun _ _ => (lit "done", none)) ⟨[], lit "http://x", [], []⟩ TCP
      8080).2.upnpc =
      [⟨CallSite.RemovePortMapping,
        [lit "-url", lit "http://x", lit "-d", lit "8080", lit "TCP"]⟩] :=
  ⟨(RemovePortMapping_result (fun _ _ => (lit "done", none)) ⟨[], lit "http://x", [], []⟩ TCP
      8080 (by decide)).2.2 rfl (by decide),
   (RemovePortMapping_result (fun _ _ => (lit "done", none)) ⟨[], lit "http://x", [], []⟩ TCP
      8080 (by decide)).1⟩

/-! ## The runs of `updateStatus` -/

theorem storeStatus_upnpc (igd : upnpIGD) (resp : Str) :
    (storeStatus igd resp).2.upnpc = igd.upnpc :=
  (storeStatus_fields igd resp).1

theorem discover_upnpc (h : Helper) (igd : upnpIGD) :
    (discover h igd).2.upnpc = igd.upnpc ++ [⟨CallSite.updateStatus, [lit "-s"]⟩] := by
  simp only [discover, CombinedOutput]
  split
  · rfl
  · rw [storeStatus_upnpc]

/-- Every call of `updateStatus` returns, after one or two runs of the helper. -/
theorem updateStatus_runs_le_two (h : Helper) (igd : upnpIGD) :
    (updateStatus h igd).2.upnpc.length ≤ igd.upnpc.length + 2 := by
  by_cases hu : igd.igdUrl = []
  · rw [updateStatus_of_empty h igd hu, discover_upnpc]
    simp
  · rw [updateStatus_of_cached h igd hu]
    simp only [rediscover, CombinedOutput]
    split
    · rw [discover_upnpc]
      simp
    · rw [storeStatus_upnpc]
      simp

/-- C7: with a cached gateway URL `u`, `updateStatus` first runs the helper
with `-url u -s`.  When that run succeeds it is the only one.  When it fails
the call goes on as `updateStatus` on the record with the URL cleared, and
there is exactly one more run, with `-s` alone; when that one fails too,
`updateStatus` returns an error with the URL cleared and the two IP fields as
before, and no third run is made.  In every case at most two runs are made. -/
theorem updateStatus_cached_runs (h : Helper) (igd : upnpIGD) (hu : igd.igdUrl ≠ []) :
    ((h (igd.upnpc.map Invocation.params) [lit "-url", igd.igdUrl, lit "-s"]).2 = none →
      (updateStatus h igd).2.upnpc =
        igd.upnpc ++ [⟨CallSite.updateStatus, [lit "-url", igd.igdUrl, lit "-s"]⟩]) ∧
    ((h (igd.upnpc.map Invocation.params) [lit "-url", igd.igdUrl, lit "-s"]).2 ≠ none →
      updateStatus h igd =
        updateStatus h
          { upnpc := igd.upnpc ++ [⟨CallSite.updateStatus, [lit "-url", igd.igdUrl, lit "-s"]⟩],
            igdUrl := [], internalIP := igd.internalIP, externalIP := igd.externalIP } ∧
      (updateStatus h igd).2.upnpc =
        igd.upnpc ++ [⟨CallSite.updateStatus, [lit "-url", igd.igdUrl, lit "-s"]⟩,
          ⟨CallSite.updateStatus, [lit "-s"]⟩] ∧
      ((h (igd.upnpc.map Invocation.params ++ [[lit "-url", igd.igdUrl, lit "-s"]])
          [lit "-s"]).2 ≠ none →
        (updateStatus h igd).1 ≠ none ∧
        (updateStatus h igd).2.igdUrl = [] ∧
        (updateStatus h igd).2.internalIP = igd.internalIP ∧
        (updateStatus h igd).2.externalIP = igd.externalIP)) ∧
    (updateStatus h igd).2.upnpc.length ≤ igd.upnpc.length + 2 := by
  refine ⟨?_, ?_, updateStatus_runs_le_two h igd⟩
  · intro hok
    rw [updateStatus_of_cached h igd hu]
    simp only [rediscover, CombinedOutput, hok, storeStatus_upnpc]
  · intro hfail
    obtain ⟨e, he⟩ := Option.ne_none_iff_exists'.mp hfail
    rw [updateStatus_of_cached h igd hu, updateStatus_of_empty h _ rfl]
    simp only [rediscover, CombinedOutput, he]
    refine ⟨trivial, by rw [discover_upnpc]; simp, ?_⟩
    intro hfail2
    obtain ⟨e2, he2⟩ := Option.ne_none_iff_exists'.mp hfail2
    simp [discover, CombinedOutput, he2]

/-- Witness for C7: a helper that fails on every run. -/
theorem updateStatus_cached_runs_witness :
    (updateStatus (fun _ _ => (lit "no IGD", some (lit "exit status 1")))
      ⟨[], lit "http://x", lit "10.0.0.2", lit "1.2.3.4"⟩).2.upnpc =
      [] ++ [⟨CallSite.updateStatus, [lit "-url", lit "http://x", lit "-s"]⟩,
        ⟨CallSite.updateStatus, [lit "-s"]⟩] ∧
    (updateStatus (fun _ _ => (lit "no IGD", some (lit "exit status 1")))
      ⟨[], lit "http://x", lit "10.0.0.2", lit "1.2.3.4"⟩).1 ≠ none :=
  ⟨((updateStatus_cached_runs (fun _ _ => (lit "no IGD", some (lit "exit status 1")))
      ⟨[], lit "http://x", lit "10.0.0.2", lit "1.2.3.4"⟩ (by decide)).2.1 (by decide)).2.1,
   (((updateStatus_cached_runs (fun _ _ => (lit "no IGD", some (lit "exit status 1")))
      ⟨[], lit "http://x", lit "10.0.0.2", lit "1.2.3.4"⟩ (by decide)).2.1 (by decide)).2.2
        (by decide)).1⟩

/-- C8: without a cached gateway URL, `updateStatus` runs the helper exactly
once, with the argument list `-s`.  When the run succeeds and each of the three
labels occurs in its output and is followed by a carriage return or a line
feed, `updateStatus` returns no error and the three fields are what
`extractFromStatusResponse` returns on that output for the three labels.  When
the run fails, `updateStatus` returns an error and the three fields are as
before. -/
theorem updateStatus_discovery (h : Helper) (igd : upnpIGD) (hu : igd.igdUrl = []) :
    (updateStatus h igd).2.upnpc = igd.upnpc ++ [⟨CallSite.updateStatus, [lit "-s"]⟩] ∧
    ((h (igd.upnpc.map Invocation.params) [lit "-s"]).2 = none →
      (∀ label ∈ [IGD_URL_LABEL, LOCAL_IP_ADDRESS_LABEL, EXTERNAL_IP_ADDRESS_LABEL],
        0 ≤ Index (h (igd.upnpc.map Invocation.params) [lit "-s"]).1 label ∧
        ∃ c ∈ afterLabel (h (igd.upnpc.map Invocation.params) [lit "-s"]).1 label,
          c = '\r' ∨ c = '\n') →
      (updateStatus h igd).1 = none ∧
      (updateStatus h igd).2.igdUrl =
        (extractFromStatusResponse (h (igd.upnpc.map Invocation.params) [lit "-s"]).1
          IGD_URL_LABEL).1 ∧
      (updateStatus h igd).2.internalIP =
        (extractFromStatusResponse (h (igd.upnpc.map Invocation.params) [lit "-s"]).1
          LOCAL_IP_ADDRESS_LABEL).1 ∧
      (updateStatus h igd).2.externalIP =
        (extractFromStatusResponse (h (igd.upnpc.map Invocation.params) [lit "-s"]).1
          EXTERNAL_IP_ADDRESS_LABEL).1) ∧
    ((h (igd.upnpc.map Invocation.params) [lit "-s"]).2 ≠ none →
      (updateStatus h igd).1 ≠ none ∧
      (updateStatus h igd).2.igdUrl = igd.igdUrl ∧
      (updateStatus h igd).2.internalIP = igd.internalIP ∧
      (updateStatus h igd).2.externalIP = igd.externalIP) := by
  rw [updateStatus_of_empty h igd hu]
  refine ⟨discover_upnpc h igd, ?_, ?_⟩
  · intro hok hall
    have h1 := (extract_ok_iff _ IGD_URL_LABEL).mpr (hall _ (by simp))
    have h2 := (extract_ok_iff _ LOCAL_IP_ADDRESS_LABEL).mpr (hall _ (by simp))
    have h3 := (extract_ok_iff _ EXTERNAL_IP_ADDRESS_LABEL).mpr (hall _ (by simp))
    simp only [discover, CombinedOutput, hok]
    obtain ⟨-, -, -, hC⟩ := storeStatus_fields
      { igd with upnpc := igd.upnpc ++ [⟨CallSite.updateStatus, [lit "-s"]⟩] }
      (h (igd.upnpc.map Invocation.params) [lit "-s"]).1
    obtain ⟨he, hrest⟩ := hC h1 h2
    exact ⟨he.trans h3, hrest⟩
  · intro hfail
    obtain ⟨e, he⟩ := Option.ne_none_iff_exists'.mp hfail
    simp [discover, CombinedOutput, he]

/-- Witness for C8: the fresh record and a helper that prints the three lines,
the first ended by a carriage return and a line feed. -/
theorem updateStatus_discovery_witness :
    (updateStatus (fun _ _ => (lit
      "Found valid IGD : http://x\r\nLocal LAN ip address : 10.0.0.2\nExternalIPAddress = 1.2.3.4\n",
      none)) fresh).1 = none ∧
    (updateStatus (fun _ _ => (lit
      "Found valid IGD : http://x\r\nLocal LAN ip address : 10.0.0.2\nExternalIPAddress = 1.2.3.4\n",
      none)) fresh).2.upnpc = fresh.upnpc ++ [⟨CallSite.updateStatus, [lit "-s"]⟩] :=
  ⟨((updateStatus_discovery (fun _ _ => (lit
      "Found valid IGD : http://x\r\nLocal LAN ip address : 10.0.0.2\nExternalIPAddress = 1.2.3.4\n",
      none)) fresh rfl).2.1 rfl (by decide)).1,
   (updateStatus_discovery (fun _ _ => (lit
      "Found valid IGD : http://x\r\nLocal LAN ip address : 10.0.0.2\nExternalIPAddress = 1.2.3.4\n",
      none)) fresh rfl).1⟩

/-! ## `GetExternalIP` called again -/

theorem updateStatusIfNecessary_eq (h : Helper) (igd : upnpIGD) :
    updateStatusIfNecessary h igd = if igd.igdUrl = [] then discover h igd else (none, igd) := by
  unfold updateStatusIfNecessary
  split
  · rename_i hu
    exact updateStatus_of_empty h igd hu
  · rfl

/-- C6, as stated, fails: the helper's first status output gives an empty
gateway URL (the label is followed at once by the line feed) and the external
IP `1.2.3.4`; every later run fails.  The first `GetExternalIP` on the fresh
record returns `1.2.3.4` without error and leaves the URL field empty, so the
next `GetExternalIP` runs the helper again and returns an error. -/
theorem GetExternalIP_repeat_refuted :
    GetExternalIP (fun hist _ =>
        if hist = [] then
          (lit "Found valid IGD : \nLocal LAN ip address : 10.0.0.2\nExternalIPAddress = 1.2.3.4\n",
            none)
        else (lit "", some (lit "exit status 1"))) fresh =
      ((lit "1.2.3.4", none),
        ⟨[⟨CallSite.updateStatus, [lit "-s"]⟩], [], lit "10.0.0.2", lit "1.2.3.4"⟩) ∧
    (GetExternalIP (fun hist _ =>
        if hist = [] then
          (lit "Found valid IGD : \nLocal LAN ip address : 10.0.0.2\nExternalIPAddress = 1.2.3.4\n",
            none)
        else (lit "", some (lit "exit status 1")))
      ⟨[⟨CallSite.updateStatus, [lit "-s"]⟩], [], lit "10.0.0.2", lit "1.2.3.4"⟩).1.2 ≠ none ∧
    (GetExternalIP (fun hist _ =>
        if hist = [] then
          (lit "Found valid IGD : \nLocal LAN ip address : 10.0.0.2\nExternalIPAddress = 1.2.3.4\n",
            none)
        else (lit "", some (lit "exit status 1")))
      ⟨[⟨CallSite.updateStatus, [lit "-s"]⟩], [], lit "10.0.0.2", lit "1.2.3.4"⟩).2.upnpc =
      [⟨CallSite.updateStatus, [lit "-s"]⟩, ⟨CallSite.updateStatus, [lit "-s"]⟩] := by
  simp only [GetExternalIP, updateStatusIfNecessary_eq]
  decide

/-- C6, amended: when a call of `GetExternalIP` returns `ip` without error and
leaves a non-empty gateway URL in the record, then that first call made at
most one helper run, a status run `-s`, and only when no URL was cached; the
next call on the resulting record returns `ip` without error and leaves the
record as it is, the list of helper runs included; so does every further call.
Across the whole series of calls at most one status run, the first, is made. -/
theorem GetExternalIP_repeat (h : Helper) (igd igd1 : upnpIGD) (ip : Str)
    (hfirst : GetExternalIP h igd = ((ip, none), igd1)) (hurl : igd1.igdUrl ≠ []) :
    igd1.upnpc =
      (if igd.igdUrl = [] then igd.upnpc ++ [⟨CallSite.updateStatus, [lit "-s"]⟩]
       else igd.upnpc) ∧
    GetExternalIP h igd1 = ((ip, none), igd1) ∧
    (∀ n : Nat, (fun s => (GetExternalIP h s).2)^[n] igd1 = igd1) ∧
    (∀ n : Nat, ((fun s => (GetExternalIP h s).2)^[n + 1] igd).upnpc =
      (if igd.igdUrl = [] then igd.upnpc ++ [⟨CallSite.updateStatus, [lit "-s"]⟩]
       else igd.upnpc)) := by
  have hstate : (GetExternalIP h igd).2 = (updateStatusIfNecessary h igd).2 := by
    unfold GetExternalIP
    simp only []
    split <;> rfl
  have hrec : igd1 = (updateStatusIfNecessary h igd).2 := by
    rw [← hstate, hfirst]
  have hlog : igd1.upnpc =
      (if igd.igdUrl = [] then igd.upnpc ++ [⟨CallSite.updateStatus, [lit "-s"]⟩]
       else igd.upnpc) := by
    rw [hrec, updateStatusIfNecessary_eq]
    by_cases hu : igd.igdUrl = []
    · rw [if_pos hu, if_pos hu]
      exact discover_upnpc h igd
    · rw [if_neg hu, if_neg hu]
  have hip : igd1.externalIP = ip := by
    unfold GetExternalIP at hfirst
    simp only [] at hfirst
    split at hfirst
    · simp at hfirst
    · simp only [Prod.mk.injEq, and_true] at hfirst
      rw [← hfirst.2]
      exact hfirst.1
  have hnext : GetExternalIP h igd1 = ((ip, none), igd1) := by
    simp [GetExternalIP, updateStatusIfNecessary, hurl, hip]
  have hiter : ∀ n : Nat, (fun s => (GetExternalIP h s).2)^[n] igd1 = igd1 := by
    intro n
    induction n with
    | zero => rfl
    | succ n ih => rw [Function.iterate_succ_apply, hnext, ih]
  refine ⟨hlog, hnext, hiter, fun n => ?_⟩
  rw [Function.iterate_succ_apply, hfirst, hiter n]
  exact hlog

/-- Witness for C6: the fresh record and a helper that prints the three lines
with the URL `http://x`.  The first call makes the one status run; the second
call returns the same address and makes none. -/
theorem GetExternalIP_repeat_witness :
    (⟨[⟨CallSite.updateStatus, [lit "-s"]⟩], lit "http://x", lit "10.0.0.2",
        lit "1.2.3.4"⟩ : upnpIGD).upnpc =
      (if fresh.igdUrl = [] then fresh.upnpc ++ [⟨CallSite.updateStatus, [lit "-s"]⟩]
       else fresh.upnpc) ∧
    GetExternalIP (fun _ _ => (lit
        "Found valid IGD : http://x\nLocal LAN ip address : 10.0.0.2\nExternalIPAddress = 1.2.3.4\n",
        none))
      ⟨[⟨CallSite.updateStatus, [lit "-s"]⟩], lit "http://x", lit "10.0.0.2", lit "1.2.3.4"⟩ =
      ((lit "1.2.3.4", none),
        ⟨[⟨CallSite.updateStatus, [lit "-s"]⟩], lit "http://x", lit "10.0.0.2", lit "1.2.3.4"⟩) :=
  ⟨(GetExternalIP_repeat (fun _ _ => (lit
      "Found valid IGD : http://x\nLocal LAN ip address : 10.0.0.2\nExternalIPAddress = 1.2.3.4\n",
      none)) fresh
    ⟨[⟨CallSite.updateStatus, [lit "-s"]⟩], lit "http://x", lit "10.0.0.2", lit "1.2.3.4"⟩
    (lit "1.2.3.4")
    (by simp only [GetExternalIP, updateStatusIfNecessary_eq]; decide) (by decide)).1,
   (GetExternalIP_repeat (fun _ _ => (lit
      "Found valid IGD : http://x\nLocal LAN ip address : 10.0.0.2\nExternalIPAddress = 1.2.3.4\n",
      none)) fresh
    ⟨[⟨CallSite.updateStatus, [lit "-s"]⟩], lit "http://x", lit "10.0.0.2", lit "1.2.3.4"⟩
    (lit "1.2.3.4")
    (by simp only [GetExternalIP, updateStatusIfNecessary_eq]; decide) (by decide)).2.1⟩

/-- C9: there is a helper output, with the gateway label followed by a
non-empty value and a terminator and without the external-IP label, such that
for every helper that answers the first status run with it: the first
`GetExternalIP` on the fresh record returns an error and leaves a non-empty
gateway URL, and the next `GetExternalIP` returns the empty string without
error and leaves the record, the list of helper runs included, as it is. -/
theorem GetExternalIP_after_failed_refresh :
    ∃ out : Str,
      (extractFromStatusResponse out IGD_URL_LABEL).2 = none ∧
      (extractFromStatusResponse out IGD_URL_LABEL).1 ≠ [] ∧
      Index out EXTERNAL_IP_ADDRESS_LABEL < 0 ∧
      ∀ h : Helper, h [] [lit "-s"] = (out, none) →
        (GetExternalIP h fresh).1.2 ≠ none ∧
        (GetExternalIP h fresh).2.igdUrl ≠ [] ∧
        (GetExternalIP h fresh).2.upnpc = [⟨CallSite.updateStatus, [lit "-s"]⟩] ∧
        GetExternalIP h (GetExternalIP h fresh).2 = (([], none), (GetExternalIP h fresh).2) := by
  refine ⟨lit "Found valid IGD : http://x\nLocal LAN ip address : 10.0.0.2\n",
    by decide, by decide, by decide, ?_⟩
  intro h hh
  have hstore : storeStatus ⟨[⟨CallSite.updateStatus, [lit "-s"]⟩], [], [], []⟩
      (lit "Found valid IGD : http://x\nLocal LAN ip address : 10.0.0.2\n") =
      (some (EXTERNAL_IP_ADDRESS_LABEL ++ lit " not available from upnpc"),
        ⟨[⟨CallSite.updateStatus, [lit "-s"]⟩], lit "http://x", lit "10.0.0.2", []⟩) := by
    decide
  have hfirst : GetExternalIP h fresh =
      (([], some (EXTERNAL_IP_ADDRESS_LABEL ++ lit " not available from upnpc")),
        ⟨[⟨CallSite.updateStatus, [lit "-s"]⟩], lit "http://x", lit "10.0.0.2", []⟩) := by
    have hd : discover h fresh =
        (some (EXTERNAL_IP_ADDRESS_LABEL ++ lit " not available from upnpc"),
          ⟨[⟨CallSite.updateStatus, [lit "-s"]⟩], lit "http://x", lit "10.0.0.2", []⟩) := by
      simp only [discover, CombinedOutput, fresh, List.map_nil, hh, List.nil_append]
      exact hstore
    have hu : updateStatusIfNecessary h fresh = discover h fresh :=
      (updateStatusIfNecessary_eq h fresh).trans (if_pos rfl)
    unfold GetExternalIP
    rw [hu, hd]
  rw [hfirst]
  have hne : lit "http://x" ≠ [] := by decide
  refine ⟨by simp, hne, rfl, ?_⟩
  simp [GetExternalIP, updateStatusIfNecessary, hne]

/-! ## Status runs over a sequence of public calls -/

theorem statusRunsPlain_append (igd igd1 : upnpIGD) (inv : Invocation)
    (hp : statusRunsPlain igd) (hlog : igd1.upnpc = igd.upnpc ++ [inv])
    (hinv : inv.site = CallSite.updateStatus → inv.params = [lit "-s"]) :
    statusRunsPlain igd1 := by
  intro x hx hsite
  rw [hlog, List.mem_append, List.mem_singleton] at hx
  rcases hx with hx | rfl
  · exact hp x hx hsite
  · exact hinv hsite

theorem statusRunsPlain_updateStatusIfNecessary (h : Helper) (igd : upnpIGD)
    (hp : statusRunsPlain igd) : statusRunsPlain (updateStatusIfNecessary h igd).2 := by
  rw [updateStatusIfNecessary_eq]
  split
  · exact statusRunsPlain_append igd _ _ hp (discover_upnpc h igd) (fun _ => rfl)
  · exact hp

theorem statusRunsPlain_GetExternalIP (h : Helper) (igd : upnpIGD)
    (hp : statusRunsPlain igd) : statusRunsPlain (GetExternalIP h igd).2 := by
  have hst : (GetExternalIP h igd).2 = (updateStatusIfNecessary h igd).2 := by
    unfold GetExternalIP
    simp only []
    split <;> rfl
  rw [hst]
  exact statusRunsPlain_updateStatusIfNecessary h igd hp

theorem statusRunsPlain_AddPortMapping (h : Helper) (igd : upnpIGD) (proto : protocol)
    (internalIP : Str) (internalPort externalPort expiration : Int)
    (hp : statusRunsPlain igd) :
    statusRunsPlain
      (AddPortMapping h igd proto internalIP internalPort externalPort expiration).2 := by
  have hq := statusRunsPlain_updateStatusIfNecessary h igd hp
  unfold AddPortMapping
  simp only []
  split
  · exact hq
  · have happ : ∀ params : List Str, statusRunsPlain
        (CombinedOutput h CallSite.AddPortMapping (updateStatusIfNecessary h igd).2 params).2 :=
      fun params => statusRunsPlain_append _ _ ⟨CallSite.AddPortMapping, params⟩ hq rfl
        (fun hs => by cases hs)
    by_cases hpos : 0 < expiration
    · simp only [hpos, if_true]
      split
      · exact happ _
      · split <;> exact happ _
    · simp only [hpos, if_false]
      split
      · exact happ _
      · split <;> exact happ _

theorem statusRunsPlain_RemovePortMapping (h : Helper) (igd : upnpIGD) (proto : protocol)
    (externalPort : Int) (hp : statusRunsPlain igd) :
    statusRunsPlain (RemovePortMapping h igd proto externalPort).2 := by
  have hq := statusRunsPlain_updateStatusIfNecessary h igd hp
  unfold RemovePortMapping
  simp only []
  split
  · exact hq
  · have happ : ∀ params : List Str, statusRunsPlain
        (CombinedOutput h CallSite.RemovePortMapping (updateStatusIfNecessary h igd).2
          params).2 :=
      fun params => statusRunsPlain_append _ _ ⟨CallSite.RemovePortMapping, params⟩ hq rfl
        (fun hs => by cases hs)
    split
    · exact happ _
    · split <;> exact happ _

theorem statusRunsPlain_runOps (h : Helper) (ops : List Op) (igd : upnpIGD)
    (hp : statusRunsPlain igd) : statusRunsPlain (runOps h ops igd) := by
  induction ops generalizing igd with
  | nil => exact hp
  | cons op ops ih =>
    have hstep : statusRunsPlain (Op.run h igd op) := by
      cases op with
      | GetExternalIP => exact statusRunsPlain_GetExternalIP h igd hp
      | AddPortMapping proto internalIP internalPort externalPort expiration =>
        exact statusRunsPlain_AddPortMapping h igd proto internalIP internalPort externalPort
          expiration hp
      | RemovePortMapping proto externalPort =>
        exact statusRunsPlain_RemovePortMapping h igd proto externalPort hp
    exact ih (Op.run h igd op) hstep

theorem statusRunsPlain_fresh : statusRunsPlain fresh := by
  intro x hx
  cases hx

theorem statusRunsPlain_newUpnpIGD (Asset : Str → Str × error) (NewByteExec : Str → error)
    (h : Helper) (igd0 : upnpIGD) (err : error)
    (hnew : newUpnpIGD Asset NewByteExec h = (some igd0, err)) : statusRunsPlain igd0 := by
  unfold newUpnpIGD at hnew
  simp only [] at hnew
  split at hnew
  · cases hnew
  · split at hnew
    · cases hnew
    · simp only [Prod.mk.injEq, Option.some.injEq] at hnew
      rw [← hnew.1, updateStatus_of_empty h _ rfl]
      exact statusRunsPlain_append fresh _ _ statusRunsPlain_fresh (discover_upnpc h fresh)
        (fun _ => rfl)

/-- C10: after a construction that hands out a record, and after any sequence
of `GetExternalIP`, `AddPortMapping` and `RemovePortMapping` calls on it, for
any helper, every helper run made from `updateStatus` has the argument list
`-s` alone, and no run `-url <url> -s` was ever made: `updateStatus` was
entered with an empty gateway URL each time, and its clear-and-retry branch
was not taken.  The same holds for sequences of calls on the record with all
fields empty. -/
theorem status_runs_without_url (Asset : Str → Str × error) (NewByteExec : Str → error)
    (h : Helper) (igd0 : upnpIGD) (err : error) (ops : List Op)
    (hnew : newUpnpIGD Asset NewByteExec h = (some igd0, err)) :
    (∀ inv ∈ (runOps h ops igd0).upnpc,
      inv.site = CallSite.updateStatus → inv.params = [lit "-s"]) ∧
    (∀ u : Str, ⟨CallSite.updateStatus, [lit "-url", u, lit "-s"]⟩ ∉ (runOps h ops igd0).upnpc) ∧
    (∀ inv ∈ (runOps h ops fresh).upnpc,
      inv.site = CallSite.updateStatus → inv.params = [lit "-s"]) ∧
    (∀ u : Str, ⟨CallSite.updateStatus, [lit "-url", u, lit "-s"]⟩ ∉ (runOps h ops fresh).upnpc) := by
  have h0 := statusRunsPlain_runOps h ops igd0
    (statusRunsPlain_newUpnpIGD Asset NewByteExec h igd0 err hnew)
  have h1 := statusRunsPlain_runOps h ops fresh statusRunsPlain_fresh
  refine ⟨h0, fun u hmem => ?_, h1, fun u hmem => ?_⟩
  · have := h0 _ hmem rfl
    simp at this
  · have := h1 _ hmem rfl
    simp at this

/-- The first run of `updateStatus` tells how it was entered: it is `-s` alone
exactly when the gateway URL was empty on entry. -/
theorem updateStatus_first_run (h : Helper) (igd : upnpIGD) :
    ∃ rest, (updateStatus h igd).2.upnpc =
      igd.upnpc ++ ⟨CallSite.updateStatus,
        if igd.igdUrl = [] then [lit "-s"] else [lit "-url", igd.igdUrl, lit "-s"]⟩ :: rest := by
  by_cases hu : igd.igdUrl = []
  · rw [updateStatus_of_empty h igd hu, discover_upnpc, if_pos hu]
    exact ⟨[], rfl⟩
  · rw [updateStatus_of_cached h igd hu, if_neg hu]
    simp only [rediscover, CombinedOutput]
    split
    · rw [discover_upnpc]
      exact ⟨[⟨CallSite.updateStatus, [lit "-s"]⟩], by simp⟩
    · rw [storeStatus_upnpc]
      exact ⟨[], rfl⟩

/-- Witness for C10: a construction whose refresh succeeds, followed by a
read, an add and a remove. -/
theorem status_runs_without_url_witness :
    newUpnpIGD (fun _ => (lit "upnpc bytes", none)) (fun _ => none)
        (fun _ _ => (lit
          "Found valid IGD : http://x\nLocal LAN ip address : 10.0.0.2\nExternalIPAddress = 1.2.3.4\n",
          none)) =
      (some ⟨[⟨CallSite.updateStatus, [lit "-s"]⟩], lit "http://x", lit "10.0.0.2",
        lit "1.2.3.4"⟩, none) ∧
    ∀ inv ∈ (runOps
        (fun _ _ => (lit
          "Found valid IGD : http://x\nLocal LAN ip address : 10.0.0.2\nExternalIPAddress = 1.2.3.4\n",
          none))
        [Op.GetExternalIP, Op.AddPortMapping TCP (lit "10.0.0.2") 80 8080 0,
          Op.RemovePortMapping TCP 8080]
        ⟨[⟨CallSite.updateStatus, [lit "-s"]⟩], lit "http://x", lit "10.0.0.2",
          lit "1.2.3.4"⟩).upnpc,
      inv.site = CallSite.updateStatus → inv.params = [lit "-s"] :=
  ⟨by simp only [newUpnpIGD]; rw [updateStatus_of_empty _ _ rfl]; decide,
   (status_runs_without_url (fun _ => (lit "upnpc bytes", none)) (fun _ => none)
    (fun _ _ => (lit
      "Found valid IGD : http://x\nLocal LAN ip address : 10.0.0.2\nExternalIPAddress = 1.2.3.4\n",
      none))
    ⟨[⟨CallSite.updateStatus, [lit "-s"]⟩], lit "http://x", lit "10.0.0.2", lit "1.2.3.4"⟩
    none
    [Op.GetExternalIP, Op.AddPortMapping TCP (lit "10.0.0.2") 80 8080 0,
      Op.RemovePortMapping TCP 8080]
    (by simp only [newUpnpIGD]; rw [updateStatus_of_empty _ _ rfl]; decide)).1⟩

end Igdman
